import Mathlib

/-!
Verification of the voxsprite reactive engine.

The definitions below are a shallow embedding of the Python sources:
  - `src/vox_sprite/audio.py` (class `Mic`),
  - `src/vox_sprite/ui/panel.py` (`PanelWindow._poll_mic`, `_normalize_values`),
  - `src/vox_sprite/widgets/avatar.py` (`AvatarWindow._resolve_talk_variant`,
    `_advance_idle_frame`, `_update_idle_timer`, `update_idle_anim_options`,
    `set_talking`, `set_talk_level`, `load_images`).

Python floats are modelled as rationals (the properties at stake are order
and convexity facts about the exact arithmetic), image handles as naturals,
timestamps as rationals.  Randomness (`random.uniform`, `random.randrange`)
is modelled by passing the drawn value as an explicit argument; GUI-only
effects (repainting a pixmap) are modelled by a boolean "refreshed" output
where a claim needs to observe them.
-/

namespace VoxSprite

/-- Image handles are opaque to the engine; a natural number stands for one. -/
abbrev Img := ℕ

/-! ### audio.py — Mic

`Mic.read` drains the FIFO handoff queue with repeated `get_nowait`,
overwriting `latest_value` each time, so it ends with the last (most
recently enqueued) element, or the initial 0.0 when the queue is empty.
The queue is modelled as a list with the front at the head. -/

/-- The drain loop of `Mic.read`: successive `get_nowait` results overwrite
the accumulator until the queue raises `Empty`. -/
def drainAll : List ℚ → ℚ → ℚ
  | [], latest => latest
  | v :: rest, _ => drainAll rest v

/-- `Mic.read`: returns the drained value and the queue state afterwards. -/
def Mic.read (rmsQueue : List ℚ) : ℚ × List ℚ :=
  (drainAll rmsQueue 0, [])

/-! ### panel.py — level smoother (`PanelWindow._poll_mic`, line 805) -/

/-- One EWMA update: `self.level = (self.level * 0.7) + (level * 0.3)`. -/
def ewmaStep (smoothed raw : ℚ) : ℚ :=
  smoothed * 0.7 + raw * 0.3

/-- The smoothed level after a sequence of poll ticks, starting from the
constructor's `self.level = 0.0`. -/
def smoothedRun (raws : List ℚ) : ℚ :=
  raws.foldl ewmaStep 0

/-! ### panel.py — talk-state machine (`PanelWindow._poll_mic`, lines 808-820) -/

/-- The talking flag (`avatar.is_talking`) together with the panel's
`last_switch` timestamp. -/
structure TalkState where
  talking : Bool
  lastSwitch : ℚ
deriving DecidableEq

/-- The constructor state: `avatar.is_talking = False`,
`self.last_switch = time.time()` at construction time `t0`. -/
def initialTalkState (t0 : ℚ) : TalkState :=
  { talking := false, lastSwitch := t0 }

/-- The transition part of one `_poll_mic` tick, given the already-updated
smoothed `level` and the current time `now`:

    release_th = talk_th * 0.7
    if talking:  flip off when level < release_th and now - last_switch > 0.05
    else:        flip on  when level > talk_th   and now - last_switch > 0.05
-/
def pollTransition (talkTh : ℚ) (s : TalkState) (level now : ℚ) : TalkState :=
  let releaseTh := talkTh * 0.7
  if s.talking then
    if level < releaseTh ∧ now - s.lastSwitch > 0.05 then
      { talking := false, lastSwitch := now }
    else s
  else
    if level > talkTh ∧ now - s.lastSwitch > 0.05 then
      { talking := true, lastSwitch := now }
    else s

/-- Run the transition machine over a list of `(now, level)` ticks,
recording the timestamps at which the talking flag actually flipped. -/
def transitionTimes (talkTh : ℚ) : TalkState → List (ℚ × ℚ) → List ℚ
  | _, [] => []
  | s, (now, level) :: rest =>
    let s' := pollTransition talkTh s level now
    if s'.talking ≠ s.talking then now :: transitionTimes talkTh s' rest
    else transitionTimes talkTh s' rest

/-! Basic lemmas about the embedded operations. -/

theorem drainAll_eq_getLast (q : List ℚ) : ∀ acc, drainAll q acc = q.getLast?.getD acc := by
  induction q with
  | nil => intro acc; rfl
  | cons v rest ih =>
    intro acc
    show drainAll rest v = ((v :: rest).getLast?).getD acc
    rw [ih v]
    cases rest with
    | nil => rfl
    | cons w ws =>
      rcases h : (w :: ws).getLast? with _ | x
      · simp at h
      · simp [List.getLast?_cons_cons, h]

theorem ewmaStep_nonneg {s r : ℚ} (hs : 0 ≤ s) (hr : 0 ≤ r) : 0 ≤ ewmaStep s r := by
  unfold ewmaStep
  nlinarith

theorem ewmaStep_between (s r : ℚ) :
    min s r ≤ ewmaStep s r ∧ ewmaStep s r ≤ max s r := by
  unfold ewmaStep
  rcases le_total s r with h | h <;>
    constructor <;> simp [min_def, max_def, h] <;> nlinarith

theorem foldl_ewma_nonneg (raws : List ℚ) :
    ∀ acc, 0 ≤ acc → (∀ r ∈ raws, 0 ≤ r) → 0 ≤ raws.foldl ewmaStep acc := by
  induction raws with
  | nil => intro acc h _; simpa using h
  | cons r rest ih =>
    intro acc hacc hall
    simp only [List.foldl_cons]
    exact ih _ (ewmaStep_nonneg hacc (hall r (by simp))) fun x hx => hall x (by simp [hx])

/-- A tick that does not flip the talking flag leaves the whole state
(including `last_switch`) unchanged. -/
theorem pollTransition_no_flip (talkTh : ℚ) (s : TalkState) (level now : ℚ)
    (h : (pollTransition talkTh s level now).talking = s.talking) :
    pollTransition talkTh s level now = s := by
  rcases s with ⟨talking, lastSwitch⟩
  cases talking
  · by_cases hc : level > talkTh ∧ now - lastSwitch > 0.05
    · simp [pollTransition, hc] at h
    · simp [pollTransition, hc]
  · by_cases hc : level < talkTh * 0.7 ∧ now - lastSwitch > 0.05
    · simp [pollTransition, hc] at h
    · simp [pollTransition, hc]

/-- A tick that flips the talking flag stamps `last_switch := now` and can
only fire more than 0.05 s after the previous flip. -/
theorem pollTransition_flip (talkTh : ℚ) (s : TalkState) (level now : ℚ)
    (h : (pollTransition talkTh s level now).talking ≠ s.talking) :
    (pollTransition talkTh s level now).lastSwitch = now
      ∧ 0.05 < now - s.lastSwitch := by
  rcases s with ⟨talking, lastSwitch⟩
  cases talking
  · by_cases hc : level > talkTh ∧ now - lastSwitch > 0.05
    · exact ⟨by simp [pollTransition, hc], hc.2⟩
    · simp [pollTransition, hc] at h
  · by_cases hc : level < talkTh * 0.7 ∧ now - lastSwitch > 0.05
    · exact ⟨by simp [pollTransition, hc], hc.2⟩
    · simp [pollTransition, hc] at h

/-! ### avatar.py — variant selector (`AvatarWindow._resolve_talk_variant`)

    best_index = -1
    candidate = self.talk_pix
    for variant_index, (threshold, pixmap) in enumerate(self.talk_variants):
        if current_level >= threshold:
            best_index = variant_index
            candidate = pixmap
    return best_index, candidate
-/

/-- The enumerate-and-scan loop of `_resolve_talk_variant`: `idx` is the
index of the head of the remaining list, `best` the accumulator. -/
def resolveScan {α : Type} (level : ℚ) : List (ℚ × α) → ℕ → ℤ × Option α → ℤ × Option α
  | [], _, best => best
  | (threshold, pixmap) :: rest, idx, best =>
    resolveScan level rest (idx + 1)
      (if threshold ≤ level then ((idx : ℤ), some pixmap) else best)

/-- `_resolve_talk_variant(level)`: the explicit-level path clamps with
`max(0.0, float(level))` first. -/
def resolveTalkVariant {α : Type} (talkPix : Option α) (talkVariants : List (ℚ × α))
    (level : ℚ) : ℤ × Option α :=
  resolveScan (max 0 level) talkVariants 0 (-1, talkPix)

/-! ### avatar.py — avatar state and idle scheduler -/

/-- The fields of `AvatarWindow` that the reactive engine touches.
`timerMs = none` models a stopped `QTimer`; `some n` models a pending
timer started with `start(n)` milliseconds. -/
structure AvatarState where
  idlePixList : List Img
  idleIndex : ℕ
  talkPix : Option Img
  talkVariants : List (ℚ × Img)
  talkLevel : ℚ
  isTalking : Bool
  idleRandom : Bool
  idleIntervalMin : ℚ
  idleIntervalMax : ℚ
  timerMs : Option ℤ
deriving DecidableEq

/-- `_update_idle_timer`, with the `random.uniform(idle_interval_min,
idle_interval_max)` result passed in as `draw`.  `start(int(interval * 1000))`
truncates to milliseconds; for the nonnegative draws `random.uniform`
produces from the positive configured bounds this is the floor. -/
def updateIdleTimer (s : AvatarState) (draw : ℚ) : AvatarState :=
  if s.idlePixList.length ≤ 1 ∨ s.isTalking then { s with timerMs := none }
  else { s with timerMs := some ⌊draw * 1000⌋ }

/-- `_advance_idle_frame`, with the `random.randrange(len(idle_pix_list))`
result passed in as `randIdx` and the next interval draw as `draw`. -/
def advanceIdleFrame (s : AvatarState) (randIdx : ℕ) (draw : ℚ) : AvatarState :=
  if s.idlePixList.isEmpty ∨ s.isTalking then updateIdleTimer s draw
  else
    let s' :=
      if s.idleRandom then { s with idleIndex := randIdx }
      else { s with idleIndex := (s.idleIndex + 1) % s.idlePixList.length }
    updateIdleTimer s' draw

/-- `update_idle_anim_options`: the live-update path, which clamps
`interval_min` to at least 0.05 and raises `interval_max` to it. -/
def updateIdleAnimOptions (s : AvatarState) (randomOrder : Bool)
    (intervalMin intervalMax : ℚ) (draw : ℚ) : AvatarState :=
  let newMin := max 0.05 intervalMin
  let newMax := max newMin intervalMax
  updateIdleTimer
    { s with idleRandom := randomOrder, idleIntervalMin := newMin, idleIntervalMax := newMax }
    draw

/-- `set_talk_level`: clamps the level to ≥ 0 and stores it (the re-render
it may trigger is display-only and does not change engine state). -/
def setTalkLevel (s : AvatarState) (level : ℚ) : AvatarState :=
  { s with talkLevel := max 0 level }

/-- `set_talking`: early-returns when the flag already has the requested
value; otherwise stores it, repaints, and restarts or stops the idle timer.
The boolean output records whether `refresh()` ran. -/
def setTalking (s : AvatarState) (talking : Bool) (draw : ℚ) : AvatarState × Bool :=
  if s.isTalking = talking then (s, false)
  else (updateIdleTimer { s with isTalking := talking } draw, true)

/-! ### panel.py — configuration load (`PanelWindow._normalize_values`,
lines 126-133) -/

/-- The idle-interval part of `_normalize_values`, run once at load:

    if min_interval <= 0: min_interval = 0.1
    if max_interval < min_interval: max_interval = min_interval
-/
def normalizeIdleIntervals (minInterval maxInterval : ℚ) : ℚ × ℚ :=
  let minI := if minInterval ≤ 0 then 0.1 else minInterval
  let maxI := if maxInterval < minI then minI else maxInterval
  (minI, maxI)

/-! ### panel.py — the poll tick (`PanelWindow._poll_mic`) -/

/-- The fields of `PanelWindow` that `_poll_mic` touches. -/
structure PanelState where
  level : ℚ
  lastSwitch : ℚ
  avatar : AvatarState
  timerActive : Bool
  micErrorNotified : Bool
deriving DecidableEq

/-- One `_poll_mic` tick.  `readResult` is the outcome of `self.mic.read()`:
`.ok raw` is a drained value, `.error ()` a raised exception (e.g. a stream
fault), which the `except` clause handles by stopping the poll timer and
notifying at most once.  The boolean output records whether the one-time
error dialog was shown on this tick. -/
def pollMic (talkTh : ℚ) (s : PanelState) (readResult : Except Unit ℚ) (now draw : ℚ) :
    PanelState × Bool :=
  match readResult with
  | .ok raw =>
    let level' := ewmaStep s.level raw
    let avatarWithLevel := setTalkLevel s.avatar level'
    let before : TalkState := { talking := avatarWithLevel.isTalking, lastSwitch := s.lastSwitch }
    let after := pollTransition talkTh before level' now
    if after.talking ≠ before.talking then
      ({ s with level := level', lastSwitch := now,
                avatar := (setTalking avatarWithLevel after.talking draw).1 }, false)
    else
      ({ s with level := level', avatar := avatarWithLevel }, false)
  | .error _ =>
    ({ s with timerActive := false, micErrorNotified := true }, !s.micErrorNotified)

/-- One scheduled tick's inputs: the mic read outcome, the wall-clock time,
and the interval draw a timer restart would consume. -/
structure TickInput where
  readResult : Except Unit ℚ
  now : ℚ
  draw : ℚ

/-- The poll timer loop: a tick only fires while the timer is active
(`timer.stop()` in the `except` clause prevents all later ticks).  The
second component counts how many error dialogs were shown. -/
def pollLoop (talkTh : ℚ) (s : PanelState) : List TickInput → PanelState × ℕ
  | [] => (s, 0)
  | tick :: rest =>
    if s.timerActive then
      let step := pollMic talkTh s tick.readResult tick.now tick.draw
      let done := pollLoop talkTh step.1 rest
      (done.1, (if step.2 then 1 else 0) + done.2)
    else (s, 0)

/-! Lemmas about the variant-selection scan. -/

theorem resolveScan_no_match {α : Type} (level : ℚ) :
    ∀ (l : List (ℚ × α)) (i : ℕ) (best : ℤ × Option α),
      (∀ p ∈ l, level < p.1) → resolveScan level l i best = best := by
  intro l
  induction l with
  | nil => intro i best _; rfl
  | cons hd rest ih =>
    intro i best hall
    rcases hd with ⟨th, pix⟩
    have hth : level < th := hall (th, pix) (by simp)
    simp only [resolveScan]
    rw [if_neg (not_le.mpr hth)]
    exact ih (i + 1) best fun p hp => hall p (by simp [hp])

theorem resolveScan_last_match {α : Type} (level : ℚ) :
    ∀ (l : List (ℚ × α)) (i : ℕ) (best : ℤ × Option α) (k : Fin l.length),
      (l.get k).1 ≤ level →
      (∀ j : Fin l.length, (k : ℕ) < (j : ℕ) → level < (l.get j).1) →
      resolveScan level l i best = (((i + (k : ℕ) : ℕ) : ℤ), some (l.get k).2) := by
  intro l
  induction l with
  | nil => intro i best k; exact absurd k.2 (by simp)
  | cons hd rest ih =>
    intro i best k hk hlater
    rcases hd with ⟨th, pix⟩
    rcases k with ⟨kv, hkv⟩
    cases kv with
    | zero =>
      simp only [List.get] at hk
      simp only [resolveScan]
      rw [if_pos hk]
      rw [resolveScan_no_match level rest (i + 1) _ ?_]
      · simp
      · intro p hp
        obtain ⟨j, rfl⟩ := List.mem_iff_get.mp hp
        exact hlater ⟨(j : ℕ) + 1, by simpa using Nat.succ_lt_succ j.2⟩ (by simp)
    | succ kv' =>
      simp only [resolveScan]
      have hrest : kv' < rest.length := Nat.lt_of_succ_lt_succ hkv
      have hmain := ih (i + 1) (if th ≤ level then ((i : ℤ), some pix) else best) ⟨kv', hrest⟩
        (by simpa using hk)
        (fun j hj => by
          have hl := hlater ⟨(j : ℕ) + 1, by simpa using Nat.succ_lt_succ j.2⟩
            (by simpa using Nat.succ_lt_succ hj)
          simpa using hl)
      rw [hmain]
      have harith : i + 1 + kv' = i + (kv' + 1) := by omega
      rw [harith]
      rfl

theorem resolveScan_mono {α : Type} {lv1 lv2 : ℚ} (h12 : lv1 ≤ lv2) :
    ∀ (l : List (ℚ × α)) (i : ℕ) (b1 b2 : ℤ × Option α),
      b1.1 ≤ b2.1 → b1.1 < (i : ℤ) → b2.1 < (i : ℤ) →
      (resolveScan lv1 l i b1).1 ≤ (resolveScan lv2 l i b2).1 := by
  intro l
  induction l with
  | nil => intro i b1 b2 hle _ _; exact hle
  | cons hd rest ih =>
    intro i b1 b2 hle h1 h2
    rcases hd with ⟨th, pix⟩
    simp only [resolveScan]
    by_cases hc1 : th ≤ lv1
    · rw [if_pos hc1, if_pos (le_trans hc1 h12)]
      exact ih (i + 1) _ _ le_rfl (by push_cast; omega) (by push_cast; omega)
    · by_cases hc2 : th ≤ lv2
      · rw [if_neg hc1, if_pos hc2]
        exact ih (i + 1) _ _ (le_of_lt h1) (by push_cast; omega) (by push_cast; omega)
      · rw [if_neg hc1, if_neg hc2]
        exact ih (i + 1) _ _ hle (by push_cast; omega) (by push_cast; omega)

/-! Lemmas about the avatar operations. -/

theorem updateIdleTimer_isTalking (s : AvatarState) (d : ℚ) :
    (updateIdleTimer s d).isTalking = s.isTalking := by
  unfold updateIdleTimer
  split_ifs <;> rfl

theorem updateIdleTimer_idleIndex (s : AvatarState) (d : ℚ) :
    (updateIdleTimer s d).idleIndex = s.idleIndex := by
  unfold updateIdleTimer
  split_ifs <;> rfl

theorem setTalking_isTalking (s : AvatarState) (b : Bool) (d : ℚ) :
    ((setTalking s b d).1).isTalking = b := by
  unfold setTalking
  split_ifs with h
  · exact h
  · rw [updateIdleTimer_isTalking]

/-! Lemmas about the poll loop. -/

theorem pollMic_ok_level (talkTh : ℚ) (s : PanelState) (raw now draw : ℚ) :
    ((pollMic talkTh s (.ok raw) now draw).1).level = ewmaStep s.level raw := by
  unfold pollMic
  dsimp only
  split_ifs <;> rfl

theorem pollMic_ok_not_noticed (talkTh : ℚ) (s : PanelState) (raw now draw : ℚ) :
    (pollMic talkTh s (.ok raw) now draw).2 = false := by
  unfold pollMic
  dsimp only
  split_ifs <;> rfl

theorem pollMic_error_eq (talkTh : ℚ) (s : PanelState) (e : Unit) (now draw : ℚ) :
    pollMic talkTh s (.error e) now draw =
      ({ s with timerActive := false, micErrorNotified := true }, !s.micErrorNotified) := rfl

theorem pollLoop_stopped (talkTh : ℚ) (s : PanelState) (h : s.timerActive = false) :
    ∀ ticks, pollLoop talkTh s ticks = (s, 0) := by
  intro ticks
  cases ticks with
  | nil => rfl
  | cons t rest => simp [pollLoop, h]

theorem pollLoop_notices_le_one (talkTh : ℚ) :
    ∀ (ticks : List TickInput) (s : PanelState), (pollLoop talkTh s ticks).2 ≤ 1 := by
  intro ticks
  induction ticks with
  | nil => intro s; exact Nat.zero_le 1
  | cons t rest ih =>
    intro s
    by_cases ha : s.timerActive = true
    · rcases t with ⟨res, now, draw⟩
      rcases res with e | raw
      · have hstop : (pollMic talkTh s (.error e) now draw).1.timerActive = false := rfl
        simp only [pollLoop, ha, if_true]
        rw [pollLoop_stopped talkTh _ hstop rest]
        cases (pollMic talkTh s (.error e) now draw).2 <;> simp
      · have hnot := pollMic_ok_not_noticed talkTh s raw now draw
        simp only [pollLoop, ha, if_true, hnot, Bool.false_eq_true, if_false, Nat.zero_add]
        exact ih _
    · simp [pollLoop, ha]

/-- Transition timestamps of a run, with the previous `last_switch` stamp
prepended, are always spaced strictly more than 0.05 s apart. -/
theorem transitionTimes_chain_aux (talkTh : ℚ) :
    ∀ (ticks : List (ℚ × ℚ)) (s : TalkState),
      List.Chain' (fun a b => 0.05 < b - a) (s.lastSwitch :: transitionTimes talkTh s ticks) := by
  intro ticks
  induction ticks with
  | nil => intro s; simp [transitionTimes]
  | cons t rest ih =>
    intro s
    rcases t with ⟨now, level⟩
    by_cases h : (pollTransition talkTh s level now).talking = s.talking
    · have heq := pollTransition_no_flip talkTh s level now h
      simp only [transitionTimes, ne_eq, h, not_true_eq_false, if_false]
      rw [heq]
      exact ih s
    · obtain ⟨hstamp, hdwell⟩ := pollTransition_flip talkTh s level now h
      simp only [transitionTimes, ne_eq, h, not_false_eq_true, if_true]
      rw [List.chain'_cons]
      refine ⟨hdwell, ?_⟩
      have hrest := ih (pollTransition talkTh s level now)
      rwa [hstamp] at hrest

/-- `_advance_idle_frame` always ends in `_update_idle_timer`, applied to a
state with the same image list and talking flag. -/
theorem advanceIdleFrame_fields (s : AvatarState) (r : ℕ) (d : ℚ) :
    ∃ s' : AvatarState, advanceIdleFrame s r d = updateIdleTimer s' d
      ∧ s'.idlePixList = s.idlePixList ∧ s'.isTalking = s.isTalking := by
  unfold advanceIdleFrame
  dsimp only
  split_ifs with h1 h2
  · exact ⟨s, rfl, rfl, rfl⟩
  · exact ⟨{ s with idleIndex := r }, rfl, rfl, rfl⟩
  · exact ⟨{ s with idleIndex := (s.idleIndex + 1) % s.idlePixList.length }, rfl, rfl, rfl⟩

theorem advanceIdleFrame_timerMs_none (s : AvatarState) (r : ℕ) (d : ℚ)
    (h : s.idlePixList.length ≤ 1 ∨ s.isTalking = true) :
    (advanceIdleFrame s r d).timerMs = none := by
  obtain ⟨s', heq, hl, ht⟩ := advanceIdleFrame_fields s r d
  rw [heq]
  unfold updateIdleTimer
  rw [if_pos (by rw [hl, ht]; exact h)]

theorem advanceIdleFrame_timerMs_some (s : AvatarState) (r : ℕ) (d : ℚ)
    (ht : s.isTalking = false) (hlen : 1 < s.idlePixList.length) :
    (advanceIdleFrame s r d).timerMs = some ⌊d * 1000⌋ := by
  obtain ⟨s', heq, hl, htk⟩ := advanceIdleFrame_fields s r d
  rw [heq]
  unfold updateIdleTimer
  rw [if_neg]
  rw [hl, htk, ht]
  push_neg
  exact ⟨by omega, by simp⟩

theorem advanceIdleFrame_idleIndex_seq (s : AvatarState) (r : ℕ) (d : ℚ)
    (ht : s.isTalking = false) (hrnd : s.idleRandom = false) (hne : s.idlePixList ≠ []) :
    (advanceIdleFrame s r d).idleIndex = (s.idleIndex + 1) % s.idlePixList.length := by
  unfold advanceIdleFrame
  dsimp only
  rw [if_neg (by simp [ht, hne])]
  rw [hrnd]
  simp only [Bool.false_eq_true, if_false]
  rw [updateIdleTimer_idleIndex]

theorem advanceIdleFrame_idleIndex_rand (s : AvatarState) (r : ℕ) (d : ℚ)
    (ht : s.isTalking = false) (hrnd : s.idleRandom = true) (hne : s.idlePixList ≠ []) :
    (advanceIdleFrame s r d).idleIndex = r := by
  unfold advanceIdleFrame
  dsimp only
  rw [if_neg (by simp [ht, hne])]
  rw [hrnd]
  simp only [if_true]
  rw [updateIdleTimer_idleIndex]

theorem updateIdleTimer_intervals (s : AvatarState) (d : ℚ) :
    (updateIdleTimer s d).idleIntervalMin = s.idleIntervalMin
      ∧ (updateIdleTimer s d).idleIntervalMax = s.idleIntervalMax := by
  unfold updateIdleTimer
  split_ifs <;> exact ⟨rfl, rfl⟩

theorem setTalking_noop (s : AvatarState) (b : Bool) (d : ℚ) (h : s.isTalking = b) :
    setTalking s b d = (s, false) := by
  unfold setTalking
  rw [if_pos h]

/-! ### The claims -/

/-- C1: On a poll tick the talk state flips Idle→Talking exactly when the
smoothed level is strictly greater than TalkThreshold and strictly more than
0.05 s have elapsed since the last transition, flips Talking→Idle exactly
when the level is strictly less than ReleaseThreshold = TalkThreshold × 0.7
and strictly more than 0.05 s have elapsed, and for every level in the
closed band [ReleaseThreshold, TalkThreshold] no transition occurs in
either direction. -/
theorem claim_C1_talk_state_transitions (talkTh level now : ℚ) (s : TalkState) :
    (s.talking = false →
      ((pollTransition talkTh s level now).talking = true ↔
        talkTh < level ∧ 0.05 < now - s.lastSwitch))
    ∧ (s.talking = true →
      ((pollTransition talkTh s level now).talking = false ↔
        level < talkTh * 0.7 ∧ 0.05 < now - s.lastSwitch))
    ∧ (talkTh * 0.7 ≤ level → level ≤ talkTh →
        pollTransition talkTh s level now = s) := by
  rcases s with ⟨talking, ls⟩
  refine ⟨?_, ?_, ?_⟩
  · intro hf
    cases talking
    · by_cases hc : level > talkTh ∧ now - ls > 0.05
      · simp [pollTransition, hc]
      · simp [pollTransition, hc]
    · exact absurd hf (by simp)
  · intro hf
    cases talking
    · exact absurd hf (by simp)
    · by_cases hc : level < talkTh * 0.7 ∧ now - ls > 0.05
      · simp [pollTransition, hc]
      · simp [pollTransition, hc]
  · intro h1 h2
    cases talking
    · have hng : ¬(talkTh < level) := not_lt.mpr h2
      simp [pollTransition, hng]
    · have hng : ¬(level < talkTh * 0.7) := not_lt.mpr h1
      simp [pollTransition, hng]

/-- Witness for C1 at TalkThreshold 0.03 (ReleaseThreshold 0.021): a 0.04
level turns talking on, a 0.01 level turns it off, and a 0.025 level inside
the band changes nothing. -/
theorem claim_C1_witness :
    (pollTransition 0.03 ⟨false, 0⟩ 0.04 1).talking = true
    ∧ (pollTransition 0.03 ⟨true, 0⟩ 0.01 1).talking = false
    ∧ pollTransition 0.03 ⟨true, 0⟩ 0.025 1 = ⟨true, 0⟩ :=
  ⟨((claim_C1_talk_state_transitions 0.03 0.04 1 ⟨false, 0⟩).1 rfl).mpr
      ⟨by norm_num, by norm_num⟩,
   ((claim_C1_talk_state_transitions 0.03 0.01 1 ⟨true, 0⟩).2.1 rfl).mpr
      ⟨by norm_num, by norm_num⟩,
   (claim_C1_talk_state_transitions 0.03 0.025 1 ⟨true, 0⟩).2.2 (by norm_num) (by norm_num)⟩

/-- C3: The smoothed level is updated exactly once per successful poll tick
by smoothed' = smoothed·0.7 + raw·0.3, starting from 0.0 with no first-sample
special case; for nonnegative inputs the result is nonnegative and lies in
the closed interval between the previous smoothed value and the raw sample. -/
theorem claim_C3_ewma_smoothing (smoothed raw : ℚ) (hs : 0 ≤ smoothed) (hr : 0 ≤ raw) :
    0 ≤ ewmaStep smoothed raw
    ∧ min smoothed raw ≤ ewmaStep smoothed raw
    ∧ ewmaStep smoothed raw ≤ max smoothed raw
    ∧ (∀ (talkTh : ℚ) (s : PanelState) (now draw : ℚ),
        ((pollMic talkTh s (.ok raw) now draw).1).level = ewmaStep s.level raw)
    ∧ smoothedRun [] = 0
    ∧ ∀ raws : List ℚ, (∀ r ∈ raws, 0 ≤ r) → 0 ≤ smoothedRun raws :=
  ⟨ewmaStep_nonneg hs hr, (ewmaStep_between smoothed raw).1, (ewmaStep_between smoothed raw).2,
   fun talkTh s now draw => pollMic_ok_level talkTh s raw now draw, rfl,
   fun raws h => foldl_ewma_nonneg raws 0 le_rfl h⟩

/-- Witness for C3 at smoothed = 0.5, raw = 0.2: the update is nonnegative,
bounded by the inputs, and a concrete two-sample run stays nonnegative. -/
theorem claim_C3_witness :
    0 ≤ ewmaStep 0.5 0.2 ∧ ewmaStep 0.5 0.2 ≤ max 0.5 0.2 ∧ 0 ≤ smoothedRun [0.1, 0.4] := by
  obtain ⟨h1, _, h3, _, _, h6⟩ := claim_C3_ewma_smoothing 0.5 0.2 (by norm_num) (by norm_num)
  refine ⟨h1, h3, h6 [0.1, 0.4] ?_⟩
  simp only [List.mem_cons, List.not_mem_nil, or_false]
  rintro r (rfl | rfl) <;> norm_num

/-- C4: In every poll run no two talk-state transitions occur within 0.05 s
of each other (consecutive recorded transition timestamps are strictly more
than 0.05 s apart), and a tick with no transition leaves the last-transition
timestamp (and the whole state) unchanged. -/
theorem claim_C4_dwell_guard (talkTh : ℚ) (s : TalkState) (ticks : List (ℚ × ℚ)) :
    List.Chain' (fun a b => 0.05 < b - a) (transitionTimes talkTh s ticks)
    ∧ ∀ level now, (pollTransition talkTh s level now).talking = s.talking →
        pollTransition talkTh s level now = s :=
  ⟨(transitionTimes_chain_aux talkTh ticks s).tail,
   fun level now h => pollTransition_no_flip talkTh s level now h⟩

/-- Witness for C4: at threshold 0.03, a run whose second candidate
transition comes 0.02 s after the first records only the first transition,
and the blocked tick leaves the state untouched. -/
theorem claim_C4_witness :
    List.Chain' (fun a b => (0.05 : ℚ) < b - a)
        (transitionTimes 0.03 ⟨false, 0⟩ [(0.1, 0.04), (0.12, 0.001)])
    ∧ pollTransition 0.03 ⟨true, 0.1⟩ 0.001 0.12 = ⟨true, 0.1⟩ :=
  ⟨(claim_C4_dwell_guard 0.03 ⟨false, 0⟩ [(0.1, 0.04), (0.12, 0.001)]).1,
   (claim_C4_dwell_guard 0.03 ⟨true, 0.1⟩ []).2 0.001 0.12 (by
     have hng : ¬(((0.001 : ℚ) < 0.03 * 0.7) ∧ ((0.12 : ℚ) - 0.1 > 0.05)) := by norm_num
     simp [pollTransition, hng])⟩

/-- C5: `Mic.read` drains the handoff queue completely and returns the most
recently enqueued RMS value, discarding the intermediate ones; it returns
0.0 when nothing is pending, and the queue is empty afterwards. -/
theorem claim_C5_mic_read :
    (∀ (pending : List ℚ) (v : ℚ), (Mic.read (pending ++ [v])).1 = v)
    ∧ (Mic.read ([] : List ℚ)).1 = 0
    ∧ ∀ q : List ℚ, (Mic.read q).2 = [] := by
  refine ⟨?_, rfl, fun q => rfl⟩
  intro pending v
  show drainAll (pending ++ [v]) 0 = v
  rw [drainAll_eq_getLast]
  simp

/-- C2: For every level ≥ 0 and every threshold-sorted variant list, the
selector returns the last entry whose threshold ≤ level; when no entry
qualifies — in particular when the list is empty or every threshold exceeds
the level — it returns the default talk image (index −1); entries tying at
a threshold equal to the level are resolved to the later entry, since the
characterisation picks the last qualifying position. -/
theorem claim_C2_variant_selection {α : Type} (talkPix : Option α)
    (variants : List (ℚ × α)) (level : ℚ) (hlevel : 0 ≤ level)
    (hsorted : (variants.map Prod.fst).Sorted (· ≤ ·)) :
    resolveTalkVariant talkPix ([] : List (ℚ × α)) level = (-1, talkPix)
    ∧ ((∀ p ∈ variants, level < p.1) →
        resolveTalkVariant talkPix variants level = (-1, talkPix))
    ∧ ∀ k : Fin variants.length,
        (variants.get k).1 ≤ level →
        (∀ j : Fin variants.length, (k : ℕ) < (j : ℕ) → level < (variants.get j).1) →
        resolveTalkVariant talkPix variants level = (((k : ℕ) : ℤ), some (variants.get k).2) := by
  have hmax : max 0 level = level := max_eq_right hlevel
  refine ⟨rfl, ?_, ?_⟩
  · intro hall
    unfold resolveTalkVariant
    rw [hmax]
    exact resolveScan_no_match level variants 0 _ hall
  · intro k hk hlater
    unfold resolveTalkVariant
    rw [hmax]
    have h := resolveScan_last_match level variants 0 (-1, talkPix) k hk hlater
    simpa using h

/-- Witness for C2: on the tied sorted list [(0.02, a), (0.02, a2), (0.05, b)]
at level 0.02 the later tied entry (index 1) wins, and on the same list at
level 0.01 the default image is selected. -/
theorem claim_C2_witness :
    resolveTalkVariant (some 9) [(0.02, 0), (0.02, 1), (0.05, 2)] 0.02 = (1, some 1)
    ∧ resolveTalkVariant (some 9) [(0.02, 0), (0.02, 1), (0.05, 2)] 0.01 = (-1, some 9) := by
  have hsorted :
      (([(0.02, 0), (0.02, 1), (0.05, 2)] : List (ℚ × ℕ)).map Prod.fst).Sorted (· ≤ ·) := by
    norm_num [List.sorted_cons]
  constructor
  · have h := (claim_C2_variant_selection (some 9) [(0.02, 0), (0.02, 1), (0.05, 2)] 0.02
        (by norm_num) hsorted).2.2 ⟨1, by norm_num⟩ (by norm_num)
      (by
        rintro ⟨jv, hjv⟩ hj
        simp only [Fin.val_mk] at hj
        have hjv3 : jv < 3 := by simpa using hjv
        interval_cases jv
        norm_num [List.get])
    simpa using h
  · have h := (claim_C2_variant_selection (some 9) [(0.02, 0), (0.02, 1), (0.05, 2)] 0.01
        (by norm_num) hsorted).2.1
      (by
        simp only [List.mem_cons, List.not_mem_nil, or_false]
        rintro p (rfl | rfl | rfl) <;> norm_num)
    exact h

/-- C7: For a fixed sorted variant list the selected variant index is
monotone in the level: levels 0 ≤ l1 ≤ l2 select indices i1 ≤ i2, so a louder
level never selects a lower threshold tier. -/
theorem claim_C7_variant_monotone {α : Type} (talkPix : Option α)
    (variants : List (ℚ × α))
    (hsorted : (variants.map Prod.fst).Sorted (· ≤ ·))
    (l1 l2 : ℚ) (h1 : 0 ≤ l1) (h12 : l1 ≤ l2) :
    (resolveTalkVariant talkPix variants l1).1 ≤ (resolveTalkVariant talkPix variants l2).1 := by
  unfold resolveTalkVariant
  exact resolveScan_mono (max_le_max le_rfl h12) variants 0 _ _ le_rfl (by norm_num) (by norm_num)

/-- Witness for C7: on the sorted list [(0.02, a), (0.05, b)], raising the
level from 0.01 to 0.06 does not decrease the selected index. -/
theorem claim_C7_witness :
    (resolveTalkVariant (some 9) [(0.02, 0), (0.05, 1)] 0.01).1
      ≤ (resolveTalkVariant (some 9) [(0.02, 0), (0.05, 1)] 0.06).1 :=
  claim_C7_variant_monotone (some 9) [(0.02, 0), (0.05, 1)]
    (by norm_num [List.sorted_cons]) 0.01 0.06 (by norm_num) (by norm_num)

/-- C6: The idle-frame timer is stopped whenever the avatar is talking or the
idle sequence has at most one entry; otherwise each firing advances the idle
index to (index + 1) mod length in sequential mode, or to the drawn random
index in [0, length) in random-order mode, and restarts the timer with a
freshly drawn interval from [intervalMin, intervalMax]. -/
theorem claim_C6_idle_scheduler (s : AvatarState) (randIdx : ℕ) (draw : ℚ) :
    ((s.isTalking = true ∨ s.idlePixList.length ≤ 1) →
        (updateIdleTimer s draw).timerMs = none)
    ∧ ((s.isTalking = true ∨ s.idlePixList.length ≤ 1) →
        (advanceIdleFrame s randIdx draw).timerMs = none)
    ∧ (s.isTalking = false → s.idleRandom = false → s.idlePixList ≠ [] →
        (advanceIdleFrame s randIdx draw).idleIndex =
          (s.idleIndex + 1) % s.idlePixList.length)
    ∧ (s.isTalking = false → s.idleRandom = true → s.idlePixList ≠ [] →
        randIdx < s.idlePixList.length →
        (advanceIdleFrame s randIdx draw).idleIndex = randIdx
          ∧ (advanceIdleFrame s randIdx draw).idleIndex < s.idlePixList.length)
    ∧ (s.isTalking = false → 1 < s.idlePixList.length →
        s.idleIntervalMin ≤ draw → draw ≤ s.idleIntervalMax →
        (advanceIdleFrame s randIdx draw).timerMs = some ⌊draw * 1000⌋) := by
  refine ⟨?_, ?_, ?_, ?_, ?_⟩
  · intro h
    unfold updateIdleTimer
    rw [if_pos (by tauto)]
  · intro h
    exact advanceIdleFrame_timerMs_none s randIdx draw (by tauto)
  · intro ht hrnd hne
    exact advanceIdleFrame_idleIndex_seq s randIdx draw ht hrnd hne
  · intro ht hrnd hne hlt
    have h := advanceIdleFrame_idleIndex_rand s randIdx draw ht hrnd hne
    exact ⟨h, by rw [h]; exact hlt⟩
  · intro ht hlen _ _
    exact advanceIdleFrame_timerMs_some s randIdx draw ht hlen

/-- A concrete avatar state: three idle frames, sequential mode, idle. -/
def sampleAvatar : AvatarState :=
  { idlePixList := [5, 6, 7], idleIndex := 0, talkPix := some 9,
    talkVariants := [(0.02, 1), (0.05, 2)], talkLevel := 0, isTalking := false,
    idleRandom := false, idleIntervalMin := 0.2, idleIntervalMax := 0.6,
    timerMs := some 300 }

/-- Witness for C6 on `sampleAvatar`: a firing advances the index 0 → 1 and
re-arms the timer with the drawn 0.3 s interval (300 ms); with the talking
flag set, the timer is stopped instead; in random-order mode the drawn index
2 is taken. -/
theorem claim_C6_witness :
    (advanceIdleFrame sampleAvatar 0 0.3).idleIndex = (0 + 1) % 3
    ∧ (advanceIdleFrame sampleAvatar 0 0.3).timerMs = some 300
    ∧ (advanceIdleFrame { sampleAvatar with isTalking := true } 0 0.3).timerMs = none
    ∧ (advanceIdleFrame { sampleAvatar with idleRandom := true } 2 0.3).idleIndex = 2 := by
  refine ⟨?_, ?_, ?_, ?_⟩
  · have h := (claim_C6_idle_scheduler sampleAvatar 0 0.3).2.2.1 rfl rfl (by
      intro hc; exact absurd hc (by simp [sampleAvatar]))
    simpa [sampleAvatar] using h
  · have h := (claim_C6_idle_scheduler sampleAvatar 0 0.3).2.2.2.2 rfl
      (by simp [sampleAvatar]) (by norm_num [sampleAvatar]) (by norm_num [sampleAvatar])
    rw [h]
    norm_num
  · exact (claim_C6_idle_scheduler { sampleAvatar with isTalking := true } 0 0.3).2.1 (Or.inl rfl)
  · exact ((claim_C6_idle_scheduler { sampleAvatar with idleRandom := true } 2 0.3).2.2.2.1 rfl rfl
      (by intro hc; exact absurd hc (by simp [sampleAvatar]))
      (by simp [sampleAvatar])).1

/-- The idle-timing load path: `PanelWindow.__init__` normalizes the
persisted intervals (`_normalize_values`, panel.py:126-133), then
`_build_ui` ends with `_sync_idle_anim_options()` (panel.py:369), which
forwards the normalized values to `avatar.update_idle_anim_options`
(avatar.py:127-131) — all before the event loop starts, so these are the
first intervals the idle scheduler can draw from. -/
def loadIdleTiming (s : AvatarState) (ro : Bool) (cfgMin cfgMax : ℚ) (draw : ℚ) : AvatarState :=
  let normalized := normalizeIdleIntervals cfgMin cfgMax
  updateIdleAnimOptions s ro normalized.1 normalized.2 draw

theorem updateIdleAnimOptions_intervalMin (s : AvatarState) (ro : Bool) (mn mx draw : ℚ) :
    (updateIdleAnimOptions s ro mn mx draw).idleIntervalMin = max 0.05 mn := by
  unfold updateIdleAnimOptions
  dsimp only
  rw [(updateIdleTimer_intervals _ draw).1]

theorem updateIdleAnimOptions_intervalMax (s : AvatarState) (ro : Bool) (mn mx draw : ℚ) :
    (updateIdleAnimOptions s ro mn mx draw).idleIntervalMax = max (max 0.05 mn) mx := by
  unfold updateIdleAnimOptions
  dsimp only
  rw [(updateIdleTimer_intervals _ draw).2]

/-- C8: For every persisted configuration, after loading and applying it the
idle timing used by the scheduler satisfies 0.05 ≤ intervalMin ≤ intervalMax:
a persisted intervalMin below the 0.05 floor is clamped up on load (to 0.1
when it was ≤ 0, else to 0.05), one at or above the floor is kept, and
intervalMax is raised to intervalMin when it is smaller. -/
theorem claim_C8_idle_timing_on_load (s : AvatarState) (ro : Bool) (cfgMin cfgMax draw : ℚ) :
    0.05 ≤ (loadIdleTiming s ro cfgMin cfgMax draw).idleIntervalMin
    ∧ (loadIdleTiming s ro cfgMin cfgMax draw).idleIntervalMin
        ≤ (loadIdleTiming s ro cfgMin cfgMax draw).idleIntervalMax
    ∧ (0.05 ≤ cfgMin → (loadIdleTiming s ro cfgMin cfgMax draw).idleIntervalMin = cfgMin)
    ∧ (cfgMin < 0.05 →
        (loadIdleTiming s ro cfgMin cfgMax draw).idleIntervalMin
          = if cfgMin ≤ 0 then 0.1 else 0.05)
    ∧ (cfgMax < (loadIdleTiming s ro cfgMin cfgMax draw).idleIntervalMin →
        (loadIdleTiming s ro cfgMin cfgMax draw).idleIntervalMax
          = (loadIdleTiming s ro cfgMin cfgMax draw).idleIntervalMin) := by
  have hmin : (loadIdleTiming s ro cfgMin cfgMax draw).idleIntervalMin
      = max 0.05 (normalizeIdleIntervals cfgMin cfgMax).1 := by
    unfold loadIdleTiming
    rw [updateIdleAnimOptions_intervalMin]
  have hmax : (loadIdleTiming s ro cfgMin cfgMax draw).idleIntervalMax
      = max (max 0.05 (normalizeIdleIntervals cfgMin cfgMax).1)
          (normalizeIdleIntervals cfgMin cfgMax).2 := by
    unfold loadIdleTiming
    rw [updateIdleAnimOptions_intervalMax]
  refine ⟨?_, ?_, ?_, ?_, ?_⟩
  · rw [hmin]
    exact le_max_left _ _
  · rw [hmin, hmax]
    exact le_max_left _ _
  · intro h
    rw [hmin]
    unfold normalizeIdleIntervals
    dsimp only
    rw [if_neg (by linarith : ¬ cfgMin ≤ 0)]
    exact max_eq_right h
  · intro h
    rw [hmin]
    unfold normalizeIdleIntervals
    dsimp only
    split_ifs with h0
    · exact max_eq_right (by norm_num)
    · exact max_eq_left (le_of_lt h)
  · intro h
    rw [hmin] at h
    rw [hmin, hmax]
    apply max_eq_left
    unfold normalizeIdleIntervals at h ⊢
    dsimp only at h ⊢
    split_ifs at h ⊢ with h0 hc1 hc2
    · exact le_max_right _ _
    · exact le_of_lt h
    · exact le_max_right _ _
    · exact le_of_lt h

/-- Witness for C8: a persisted (0.01, 0.5) loads as intervalMin = 0.05, a
persisted (0.2, 0.6) keeps intervalMin = 0.2, and a persisted (0.2, 0.1)
has intervalMax raised to intervalMin. -/
theorem claim_C8_witness :
    (loadIdleTiming sampleAvatar false 0.01 0.5 0.3).idleIntervalMin = 0.05
    ∧ (loadIdleTiming sampleAvatar false 0.2 0.6 0.3).idleIntervalMin = 0.2
    ∧ (loadIdleTiming sampleAvatar false 0.2 0.1 0.3).idleIntervalMax
        = (loadIdleTiming sampleAvatar false 0.2 0.1 0.3).idleIntervalMin := by
  refine ⟨?_, ?_, ?_⟩
  · have h := (claim_C8_idle_timing_on_load sampleAvatar false 0.01 0.5 0.3).2.2.2.1 (by norm_num)
    rw [h]
    norm_num
  · exact (claim_C8_idle_timing_on_load sampleAvatar false 0.2 0.6 0.3).2.2.1 (by norm_num)
  · apply (claim_C8_idle_timing_on_load sampleAvatar false 0.2 0.1 0.3).2.2.2.2
    have h := (claim_C8_idle_timing_on_load sampleAvatar false 0.2 0.1 0.3).2.2.1 (by norm_num)
    rw [h]
    norm_num

/-- C9: An exception during a poll tick is caught rather than propagated:
the tick leaves the smoothed level, the last-transition timestamp, and the
whole avatar state (hence the talk state and the displayed image) as on the
last good tick, stops the polling timer, and sets the one-time notice flag,
showing the dialog only if it had not been shown before; across any run the
notice is raised at most once, and once the timer is stopped no further tick
fires. -/
theorem claim_C9_poll_fault (talkTh : ℚ) (s : PanelState) (e : Unit) (now draw : ℚ)
    (ticks : List TickInput) :
    ((pollMic talkTh s (.error e) now draw).1.level = s.level
      ∧ (pollMic talkTh s (.error e) now draw).1.lastSwitch = s.lastSwitch
      ∧ (pollMic talkTh s (.error e) now draw).1.avatar = s.avatar
      ∧ (pollMic talkTh s (.error e) now draw).1.timerActive = false
      ∧ (pollMic talkTh s (.error e) now draw).1.micErrorNotified = true
      ∧ (pollMic talkTh s (.error e) now draw).2 = !s.micErrorNotified)
    ∧ (pollLoop talkTh s ticks).2 ≤ 1
    ∧ (s.timerActive = false → pollLoop talkTh s ticks = (s, 0)) :=
  ⟨⟨rfl, rfl, rfl, rfl, rfl, rfl⟩, pollLoop_notices_le_one talkTh ticks s,
   fun h => pollLoop_stopped talkTh s h ticks⟩

/-- A concrete panel state over `sampleAvatar` whose poll timer has already
been stopped by a fault. -/
def samplePanelStopped : PanelState :=
  { level := 0.1, lastSwitch := 0, avatar := sampleAvatar, timerActive := false,
    micErrorNotified := true }

/-- Witness for C9: a faulting tick on a live panel stops the timer without
touching level or avatar, and on the already-stopped panel a further
scheduled tick does not run at all. -/
theorem claim_C9_witness :
    (pollMic 0.03 { samplePanelStopped with timerActive := true, micErrorNotified := false }
        (.error ()) 1 0.3).1.timerActive = false
    ∧ pollLoop 0.03 samplePanelStopped [⟨.error (), 1, 0.3⟩] = (samplePanelStopped, 0) :=
  ⟨(claim_C9_poll_fault 0.03
      { samplePanelStopped with timerActive := true, micErrorNotified := false }
      () 1 0.3 []).1.2.2.2.1,
   (claim_C9_poll_fault 0.03 samplePanelStopped () 1 0.3 [⟨.error (), 1, 0.3⟩]).2.2 rfl⟩

/-- C10: `set_talking(b)` with the talking flag already equal to `b` is a
no-op: the avatar state is unchanged, no repaint happens, and the idle timer
is neither stopped nor restarted (no fresh interval is consumed); hence two
consecutive calls with the same argument have the same effect as one, the
second never repainting. -/
theorem claim_C10_set_talking_idempotent (s : AvatarState) (b : Bool) (d1 d2 : ℚ) :
    (s.isTalking = b → setTalking s b d1 = (s, false))
    ∧ (setTalking (setTalking s b d1).1 b d2).1 = (setTalking s b d1).1
    ∧ (setTalking (setTalking s b d1).1 b d2).2 = false := by
  have hafter : ((setTalking s b d1).1).isTalking = b := setTalking_isTalking s b d1
  have hnoop := setTalking_noop (setTalking s b d1).1 b d2 hafter
  exact ⟨fun h => setTalking_noop s b d1 h, by rw [hnoop], by rw [hnoop]⟩

/-- Witness for C10: `sampleAvatar` is not talking, so `set_talking(False)`
returns it unchanged without repainting, and a second identical call after a
state-changing `set_talking(True)` is also a no-op. -/
theorem claim_C10_witness :
    setTalking sampleAvatar false 0.3 = (sampleAvatar, false)
    ∧ (setTalking (setTalking sampleAvatar true 0.3).1 true 0.4).1
        = (setTalking sampleAvatar true 0.3).1 :=
  ⟨(claim_C10_set_talking_idempotent sampleAvatar false 0.3 0.3).1 rfl,
   (claim_C10_set_talking_idempotent sampleAvatar true 0.3 0.4).2.1⟩

end VoxSprite
